import Mathlib

/-!
Verification of the moonbeam payment-channel core against its specification.

The Go sources embedded here:
  * src/moonchan/channels/channels.go  (shared state + role state machines)
  * src/moonchan/scripts.go            (script layer: funding, closure, refund)
  * receiver/receiver.go               (receiver orchestrator)

Modelling conventions:
  * Go int64 arithmetic wraps; where an attacker-influencable value can make a
    computation overflow we apply `wrap64` exactly where the Go expression is
    evaluated.  The Go `int` counter is modelled as unbounded (its width is
    platform dependent and 2^63 Send commits are unreachable).
  * Byte strings are `List Nat`; public keys are their compressed
    serializations (what `AddressPubKey.ScriptAddress` returns in Go).
  * hash160 (RIPEMD160 after SHA256) is modelled as an injective tag `H160`.
  * The bitcoin script interpreter (`txscript.NewEngine` / `Execute`) and
    ECDSA signing (`txscript.RawTxInSignature`) live in the btcsuite library,
    outside this repository; they are taken as explicit function parameters
    `engine` and `sign` of the definitions that call them.
  * Wire serialization of transactions (`tx.Serialize` / `BtcDecode`) is a
    byte round-trip in the source; the model passes the structured `Tx` value
    instead.  Script byte serialization is `encodeScript`, a tagged
    concatenation standing in for the bitcoin encoding.
-/

namespace Moonchan

/-- Two-complement wraparound of Go int64 arithmetic. -/
def wrap64 (x : ℤ) : ℤ := (x + 2 ^ 63) % 2 ^ 64 - 2 ^ 63

/-- Go uint32 conversion of an int64 (keeps the low 32 bits). -/
def wrap32u (x : ℤ) : ℕ := (x % 2 ^ 32).toNat

/-- Channel status; Go constants StatusNotStarted=1 .. StatusClosed=5. -/
inductive Status where
  | notStarted
  | preInfoGathered
  | opened
  | closing
  | closed
deriving Repr, DecidableEq

/-- The numeric value of each status constant in the Go source. -/
def Status.code : Status → ℤ
  | .notStarted => 1
  | .preInfoGathered => 2
  | .opened => 3
  | .closing => 4
  | .closed => 5

/-- hash160 digests, kept as an injective tag of the hashed bytes. -/
structure H160 where
  data : List ℕ
deriving Repr, DecidableEq

/-- RIPEMD160(SHA256(b)), modelled injectively. -/
def hash160 (b : List ℕ) : H160 := ⟨b⟩

/-- One element pushed by txscript.ScriptBuilder. -/
inductive ScriptElem where
  | op (code : ℕ)
  | num (n : ℤ)
  | data (bs : List ℕ)
  | dataH (h : H160)
deriving Repr, DecidableEq

/-- A bitcoin script as the list of builder elements. -/
abbrev Script := List ScriptElem

/-- Tagged byte encoding of a script element (stand-in for bitcoin script
serialization; the exact byte layout is immaterial to the claims). -/
def encodeElem : ScriptElem → List ℕ
  | .op c => [0, c]
  | .num n => [1, if n < 0 then 1 else 0, n.natAbs]
  | .data bs => 2 :: bs.length :: bs
  | .dataH h => 3 :: h.data.length :: h.data

/-- Serialized bytes of a script. -/
def encodeScript (s : Script) : List ℕ := s.flatMap encodeElem

def OP_IF : ℕ := 99
def OP_ELSE : ℕ := 103
def OP_ENDIF : ℕ := 104
def OP_CHECKMULTISIG : ℕ := 174
def OP_CHECKSEQUENCEVERIFY : ℕ := 178
def OP_DROP : ℕ := 117
def OP_DUP : ℕ := 118
def OP_HASH160 : ℕ := 169
def OP_EQUALVERIFY : ℕ := 136
def OP_EQUAL : ℕ := 135
def OP_CHECKSIG : ℕ := 172
def OP_FALSE : ℕ := 0
def OP_TRUE : ℕ := 81

/-- Transaction input (wire.TxIn); `signatureScript = []` is the Go nil. -/
structure TxIn where
  prevHash : List ℕ
  prevIndex : ℕ
  sequence : ℕ
  signatureScript : Script
deriving Repr, DecidableEq

/-- Transaction output (wire.TxOut). -/
structure TxOut where
  value : ℤ
  pkScript : Script
deriving Repr, DecidableEq

/-- A bitcoin transaction (wire.MsgTx). -/
structure Tx where
  version : ℤ
  txIn : List TxIn
  txOut : List TxOut
  lockTime : ℕ
deriving Repr, DecidableEq

/-- Hex digit value, as accepted by encoding/hex. -/
def hexVal (c : Char) : Option ℕ :=
  if '0' ≤ c ∧ c ≤ '9' then some (c.toNat - 48)
  else if 'a' ≤ c ∧ c ≤ 'f' then some (c.toNat - 87)
  else if 'A' ≤ c ∧ c ≤ 'F' then some (c.toNat - 55)
  else none

/-- encoding/hex decode of an even-length digit list. -/
def hexDecode : List Char → Option (List ℕ)
  | [] => some []
  | c1 :: c2 :: rest =>
    match hexVal c1, hexVal c2, hexDecode rest with
    | some hi, some lo, some bs => some ((16 * hi + lo) :: bs)
    | _, _, _ => none
  | [_] => none

/-- chainhash.NewHashFromStr: at most 64 hex chars, zero-padded to odd
lengths, right-aligned in 32 bytes, stored byte-reversed. -/
def newHashFromStr (s : String) : Option (List ℕ) :=
  if 64 < s.length then none
  else
    let cs := if s.length % 2 = 1 then '0' :: s.data else s.data
    match hexDecode cs with
    | none => none
    | some bs => some ((List.replicate (32 - bs.length) 0 ++ bs).reverse)

/-- channels.SharedState.  `Net` is dropped: the network parameters are only
consulted for address decoding, which no claim touches. -/
structure SharedState where
  version : ℤ
  timeout : ℤ
  fee : ℤ
  status : Status
  senderPubKey : List ℕ
  receiverPubKey : List ℕ
  senderOutput : String
  receiverOutput : String
  fundingTxID : String
  fundingVout : ℕ
  fundingAmount : ℤ
  blockHeight : ℤ
  balance : ℤ
  count : ℤ
  senderSig : List ℕ
deriving Repr, DecidableEq

/-- The two error strings of SharedState.validateAmount. -/
inductive VAErr where
  | invalidAmount
  | insufficientCapacity
deriving Repr, DecidableEq

/-- channels.go validateAmount: Go returns (int64, error); the int64
additions wrap. -/
def SharedState.validateAmount (ss : SharedState) (amount : ℤ) :
    ℤ × Option VAErr :=
  if amount ≤ 0 then (ss.balance, some .invalidAmount)
  else
    let newBalance := wrap64 (ss.balance + amount)
    if ss.fundingAmount < wrap64 (newBalance + ss.fee) then
      (ss.balance, some .insufficientCapacity)
    else (newBalance, none)

/-- scripts.go fundingTxScript. -/
def fundingTxScript (senderPubKey receiverPubKey : List ℕ) (timeout : ℤ) :
    Script :=
  [.op OP_IF,
   .num 2, .data senderPubKey, .data receiverPubKey, .num 2,
   .op OP_CHECKMULTISIG,
   .op OP_ELSE,
   .num timeout, .op OP_CHECKSEQUENCEVERIFY, .op OP_DROP,
   .op OP_DUP, .op OP_HASH160, .dataH (hash160 senderPubKey),
   .op OP_EQUALVERIFY, .op OP_CHECKSIG,
   .op OP_ENDIF]

/-- A P2SH address, identified by the redeem script it hashes
(base58 rendering and the script-hash are modelled injectively). -/
structure P2SHAddr where
  redeem : Script
deriving Repr, DecidableEq

/-- scripts.go GetFundingScript: the redeem script and the funding P2SH
address. -/
def SharedState.GetFundingScript (ss : SharedState) : Script × P2SHAddr :=
  let script := fundingTxScript ss.senderPubKey ss.receiverPubKey ss.timeout
  (script, ⟨script⟩)

/-- scripts.go spendFundingTx: version-2 transaction, one input spending
(fundingTxID, fundingVout), no outputs.  The literal wire.TxIn has a zero
Sequence.  Fails when the txid string does not parse. -/
def SharedState.spendFundingTx (ss : SharedState) : Option Tx :=
  match newHashFromStr ss.fundingTxID with
  | none => none
  | some h =>
    some { version := 2
           txIn := [{ prevHash := h, prevIndex := ss.fundingVout,
                      sequence := 0, signatureScript := [] }]
           txOut := []
           lockTime := 0 }

/-- scripts.go sendToAddress: a P2PKH output for the hash of the pubkey. -/
def sendToAddress (amount : ℤ) (pubKey : List ℕ) : TxOut :=
  { value := amount
    pkScript := [.op OP_DUP, .op OP_HASH160, .dataH (hash160 pubKey),
                 .op OP_EQUALVERIFY, .op OP_CHECKSIG] }

/-- scripts.go GetClosureTx, with the balance made an explicit parameter as
in the channels.go call sites (the checked-in scripts.go reads s.Balance,
i.e. `ss.GetClosureTx ss.balance`).  The int64 subtraction for the sender
amount wraps. -/
def SharedState.GetClosureTx (ss : SharedState) (balance : ℤ) : Option Tx :=
  let receiveAmount := balance
  let senderAmount := wrap64 (ss.fundingAmount - balance - ss.fee)
  match ss.spendFundingTx with
  | none => none
  | some tx =>
    let outs :=
      (if 0 < receiveAmount then [sendToAddress receiveAmount ss.receiverPubKey]
       else []) ++
      (if 0 < senderAmount then [sendToAddress senderAmount ss.senderPubKey]
       else [])
    some { tx with txOut := outs }

/-- Replace the signature script of input 0. -/
def Tx.setSigScript (tx : Tx) (s : Script) : Tx :=
  { tx with txIn := match tx.txIn with
                    | [] => []
                    | i :: rest => { i with signatureScript := s } :: rest }

/-- Set the sequence of input 0. -/
def Tx.setSequence (tx : Tx) (n : ℕ) : Tx :=
  { tx with txIn := match tx.txIn with
                    | [] => []
                    | i :: rest => { i with sequence := n } :: rest }

/-- scripts.go GetClosureTxSigned: closure tx whose input 0 scriptSig drives
the cooperative IF branch.  `sign` stands for txscript.RawTxInSignature with
the receiver private key (the signature is over the unsigned tx with the
redeem script as script-code, SigHashAll). -/
def SharedState.GetClosureTxSigned (sign : Tx → Script → List ℕ)
    (ss : SharedState) (balance : ℤ) (senderSig : List ℕ) : Option Tx :=
  match ss.GetClosureTx balance with
  | none => none
  | some tx =>
    let script := (ss.GetFundingScript).1
    let receiverSig := sign tx script
    let finalScript : Script :=
      [.op OP_FALSE, .data senderSig, .data receiverSig, .op OP_TRUE,
       .data (encodeScript script)]
    some (tx.setSigScript finalScript)

/-- scripts.go GetRefundTxSigned: single output of fundingAmount - fee to
the sender P2PKH, input sequence = uint32(timeout), scriptSig driving the
ELSE branch.  `sign` stands for txscript.RawTxInSignature with the sender
private key, applied to the transaction after output and sequence are set. -/
def SharedState.GetRefundTxSigned (sign : Tx → Script → List ℕ)
    (ss : SharedState) : Option Tx :=
  match ss.spendFundingTx with
  | none => none
  | some tx0 =>
    let amount := wrap64 (ss.fundingAmount - ss.fee)
    let tx1 := { tx0 with txOut := tx0.txOut ++ [sendToAddress amount ss.senderPubKey] }
    let tx2 := tx1.setSequence (wrap32u ss.timeout)
    let script := (ss.GetFundingScript).1
    let sig := sign tx2 script
    let finalScript : Script :=
      [.data sig, .data ss.senderPubKey, .op OP_FALSE,
       .data (encodeScript script)]
    some (tx2.setSigScript finalScript)

/-- Error kinds of the channels package (Go returns error strings). -/
inductive ChErr where
  | notOpen
  | amount (e : VAErr)
  | txBuildFailed
  | wrongInputCount
  | invalidSig
deriving Repr, DecidableEq

/-- scripts.go validateTx: rebuild the P2SH pkScript from the state, require
exactly one input, and run the script interpreter.  `engine` stands for
txscript.NewEngine + Execute on (pkScript, tx, input 0); any engine
rejection is the InvalidSignature outcome. -/
def SharedState.validateTx (engine : Script → Tx → Bool) (ss : SharedState)
    (tx : Tx) : Option ChErr :=
  let script := fundingTxScript ss.senderPubKey ss.receiverPubKey ss.timeout
  let pkScript : Script := [.op OP_HASH160, .dataH (hash160 (encodeScript script)),
                            .op OP_EQUAL]
  if tx.txIn.length ≠ 1 then some .wrongInputCount
  else if engine pkScript tx then none
  else some .invalidSig

/-- channels.go Receiver.validateSenderSig: counter-sign the closure tx at
the given balance and feed it to the script engine. -/
def validateSenderSig (sign : Tx → Script → List ℕ) (engine : Script → Tx → Bool)
    (ss : SharedState) (balance : ℤ) (senderSig : List ℕ) : Option ChErr :=
  match ss.GetClosureTxSigned sign balance senderSig with
  | none => some .txBuildFailed
  | some tx => ss.validateTx engine tx

/-- channels.go Receiver.Open.  The funding fields are written into the
in-memory state before signature validation runs; there is no status
precondition in the source. -/
def receiverOpen (sign : Tx → Script → List ℕ) (engine : Script → Tx → Bool)
    (ss : SharedState) (txid : String) (vout : ℕ) (amount : ℤ) (height : ℤ)
    (senderSig : List ℕ) : SharedState × Option ChErr :=
  let ss1 := { ss with fundingTxID := txid, fundingVout := vout,
                       fundingAmount := amount, blockHeight := height }
  match validateSenderSig sign engine ss1 0 senderSig with
  | some e => (ss1, some e)
  | none => ({ ss1 with senderSig := senderSig, status := .opened }, none)

/-- channels.go Receiver.Send. -/
def receiverSend (sign : Tx → Script → List ℕ) (engine : Script → Tx → Bool)
    (ss : SharedState) (amount : ℤ) (senderSig : List ℕ) :
    SharedState × Option ChErr :=
  if ss.status ≠ .opened then (ss, some .notOpen)
  else
    match ss.validateAmount amount with
    | (_, some e) => (ss, some (.amount e))
    | (newBalance, none) =>
      match validateSenderSig sign engine ss newBalance senderSig with
      | some e => (ss, some e)
      | none => ({ ss with count := ss.count + 1, balance := newBalance,
                           senderSig := senderSig }, none)

/-- channels.go Receiver.Close: allowed from Open or Closing; returns the
fully signed closure tx at the stored balance and sender signature and only
then moves to Closing. -/
def receiverClose (sign : Tx → Script → List ℕ) (ss : SharedState) :
    SharedState × Option ChErr × Option Tx :=
  if ss.status ≠ .opened ∧ ss.status ≠ .closing then (ss, some .notOpen, none)
  else
    match ss.GetClosureTxSigned sign ss.balance ss.senderSig with
    | none => (ss, some .txBuildFailed, none)
    | some tx => ({ ss with status := .closing }, none, some tx)

/-- channels.go Receiver.CloseMined: unconditionally marks the channel
Closed. -/
def receiverCloseMined (ss : SharedState) : SharedState :=
  { ss with status := .closed }

/-- channels.go Sender.signBalance. -/
def signBalance (sign : Tx → Script → List ℕ) (ss : SharedState)
    (balance : ℤ) : Option (List ℕ) :=
  match ss.GetClosureTx balance with
  | none => none
  | some tx => some (sign tx (ss.GetFundingScript).1)

/-- channels.go Sender.PrepareSend: validate the amount and sign the closure
transaction at the new balance; the state is returned untouched. -/
def senderPrepareSend (sign : Tx → Script → List ℕ) (ss : SharedState)
    (amount : ℤ) : SharedState × Option (List ℕ) :=
  match ss.validateAmount amount with
  | (_, some _) => (ss, none)
  | (newBalance, none) => (ss, signBalance sign ss newBalance)

/-- channels.go Sender.SendAccepted: commits the local count and balance
(int64 addition wraps). -/
def senderSendAccepted (ss : SharedState) (amount : ℤ) : SharedState :=
  { ss with count := ss.count + 1, balance := wrap64 (ss.balance + amount) }

/-- Error kinds surfaced by the receiver orchestrator (Go error strings). -/
inductive OErr where
  | badTxid
  | utxoNotFound
  | coinbaseUtxo
  | wrongAddrCount
  | badAddr
  | tooFewConf
  | tooManyConf
  | heightLookup
  | channelNotFound
  | roleError (e : ChErr)
deriving Repr, DecidableEq

/-- The gettxout node response consulted by the orchestrator.  The value is
the BTC amount as a decimal, modelled as an exact rational (the float64
representation error of the RPC client is out of scope). -/
structure TxOutResult where
  value : ℚ
  confirmations : ℤ
  bestBlock : String
  coinbase : Bool
  addresses : List P2SHAddr
deriving DecidableEq

/-- Go conversion int64(f) of a floating value: truncation toward zero. -/
def goTruncInt64 (x : ℚ) : ℤ := if 0 ≤ x then ⌊x⌋ else ⌈x⌉

/-- receiver.go getTxOut amount computation: `int64(txout.Value * 1e8)`. -/
def txOutSatoshi (v : ℚ) : ℤ := goTruncInt64 (v * 100000000)

/-- receiver.go getTxOut.  The node reply for the requested outpoint is the
`res` input (the txid/vout arguments of the Go function only route the node
query).  The txid is still hex-parsed first, as in the source. -/
def getTxOut (res : Option TxOutResult) (txid : String) (addr : P2SHAddr) :
    Except OErr (ℤ × ℤ × String) :=
  if (newHashFromStr txid).isNone then .error .badTxid
  else
    match res with
    | none => .error .utxoNotFound
    | some t =>
      if t.coinbase then .error .coinbaseUtxo
      else
        match t.addresses with
        | [a] =>
          if a ≠ addr then .error .badAddr
          else .ok (txOutSatoshi t.value, t.confirmations, t.bestBlock)
        | _ => .error .wrongAddrCount

/-- receiver.go Receiver.Open up to the delegation to the role: funding
address computation, UTXO checks, and the confirmation window.  Modelled
from the spec: `MinFundingConf` and `CloseWindow` are fixed constants of the
channels package whose definitions are not among the provided sources; they
are taken here as the parameters `minConf` and `closeWindow`.  The int64
subtraction for the window bound wraps. -/
def orchOpenChecks (minConf closeWindow : ℤ) (ss : SharedState)
    (res : Option TxOutResult) (txid : String) : Except OErr (ℤ × String) :=
  let addr := (ss.GetFundingScript).2
  match getTxOut res txid addr with
  | .error e => .error e
  | .ok (amount, conf, blockHash) =>
    if conf < minConf then .error .tooFewConf
    else if wrap64 (ss.timeout - closeWindow) < conf then .error .tooManyConf
    else .ok (amount, blockHash)

/-- receiver.go Receiver.Open: record lookup, the prechecks above, block
height lookup, then delegation to channels.Receiver.Open.  The record
lookup and the two node queries are the `rec`, `res` and `heightRes`
inputs.  The final compare-and-swap persistence call is behind the storage
interface and not reached by any claim, so the successful new state is
returned directly. -/
def orchestratorOpen (sign : Tx → Script → List ℕ)
    (engine : Script → Tx → Bool) (minConf closeWindow : ℤ)
    (rec : Option SharedState) (res : Option TxOutResult)
    (heightRes : String → Option ℤ) (txid : String) (vout : ℕ)
    (senderSig : List ℕ) : Except OErr SharedState :=
  match rec with
  | none => .error .channelNotFound
  | some ss =>
    match orchOpenChecks minConf closeWindow ss res txid with
    | .error e => .error e
    | .ok (amount, blockHash) =>
      match heightRes blockHash with
      | none => .error .heightLookup
      | some height =>
        match receiverOpen sign engine ss txid vout amount height senderSig with
        | (_, some e) => .error (.roleError e)
        | (ss₂, none) => .ok ss₂

/-- The channel invariant asserted by the specification for committed
states: nonnegative balance and, once the channel is at least Open, room
for the fixed fee inside the funding amount. -/
def ChannelInv (ss : SharedState) : Prop :=
  0 ≤ ss.balance ∧
  ((ss.status = .opened ∨ ss.status = .closing ∨ ss.status = .closed) →
    ss.balance + ss.fee ≤ ss.fundingAmount)

instance (ss : SharedState) : Decidable (ChannelInv ss) := by
  unfold ChannelInv; infer_instance

/-! Fixtures used by the concrete-input theorems below. -/

/-- A signing stub: any deterministic signature producer is admissible for
the structural claims. -/
def sign0 : Tx → Script → List ℕ := fun _ _ => [1]

/-- A script-engine outcome accepting the transaction: the engine genuinely
accepts whenever both closure signatures are valid, and its verdict does
not depend on the channel status, so this instantiation exhibits reachable
behavior. -/
def engineT : Script → Tx → Bool := fun _ _ => true

/-- A script-engine outcome rejecting the transaction (invalid sender
signature). -/
def engineF : Script → Tx → Bool := fun _ _ => false

/-- An open channel state as produced by the happy path: 1000000 satoshi of
funding, the default 75000 fee, a small committed balance. -/
def stOpen : SharedState :=
  { version := 1, timeout := 3, fee := 75000, status := .opened,
    senderPubKey := [2, 7], receiverPubKey := [3, 8],
    senderOutput := "sAddr", receiverOutput := "rAddr",
    fundingTxID := "", fundingVout := 0, fundingAmount := 1000000,
    blockHeight := 10, balance := 1000, count := 1, senderSig := [5] }

/-- A node UTXO reply matching the funding address of `stOpen`, with 2
confirmations and a 0.15 BTC value. -/
def txoutW : TxOutResult :=
  { value := 3 / 20, confirmations := 2, bestBlock := "bh",
    coinbase := false, addresses := [(stOpen.GetFundingScript).2] }

/-! Arithmetic helper lemmas about the int64 embedding. -/

lemma wrap64_eq_self {x : ℤ} (h1 : -2 ^ 63 ≤ x) (h2 : x < 2 ^ 63) :
    wrap64 x = x := by
  unfold wrap64
  omega

lemma wrap32u_eq_toNat {x : ℤ} (h1 : 0 ≤ x) (h2 : x < 2 ^ 32) :
    wrap32u x = x.toNat := by
  unfold wrap32u
  omega
/-! Shared helper lemmas. -/

lemma validateAmount_ok {ss : SharedState} {amount nb : ℤ}
    (h : ss.validateAmount amount = (nb, none))
    (h1 : -2 ^ 63 ≤ ss.balance) (h2 : ss.balance + amount + ss.fee < 2 ^ 63)
    (h3 : 0 ≤ ss.fee) :
    0 < amount ∧ nb = ss.balance + amount ∧
      ss.balance + amount + ss.fee ≤ ss.fundingAmount := by
  revert h
  unfold SharedState.validateAmount
  by_cases ha : amount ≤ 0
  · simp [ha]
  · push_neg at ha
    have hnb : wrap64 (ss.balance + amount) = ss.balance + amount :=
      wrap64_eq_self (by omega) (by omega)
    have hfee : wrap64 (wrap64 (ss.balance + amount) + ss.fee) =
        ss.balance + amount + ss.fee := by
      rw [hnb]; exact wrap64_eq_self (by omega) (by omega)
    simp only [if_neg (not_le.mpr ha), hfee]
    by_cases hc : ss.fundingAmount < ss.balance + amount + ss.fee
    · simp [hc]
    · simp only [if_neg hc, hnb]
      intro h
      have h' := (Prod.mk.injEq _ _ _ _).mp h
      exact ⟨ha, h'.1.symm, not_lt.mp hc⟩

lemma getTxOut_not_role (res : Option TxOutResult) (txid : String)
    (addr : P2SHAddr) (e : ChErr) :
    getTxOut res txid addr ≠ .error (.roleError e) := by
  intro h
  unfold getTxOut at h
  split at h
  · simp at h
  · split at h
    · simp at h
    · split at h
      · simp at h
      · split at h
        · split at h
          · simp at h
          · simp at h
        · simp at h

lemma orchOpenChecks_not_role (minConf closeWindow : ℤ) (ss : SharedState)
    (res : Option TxOutResult) (txid : String) (e : ChErr) :
    orchOpenChecks minConf closeWindow ss res txid ≠ .error (.roleError e) := by
  intro h
  simp only [orchOpenChecks] at h
  split at h
  · rename_i e' hg
    injection h with h'
    subst h'
    exact getTxOut_not_role res txid _ e hg
  · split at h
    · simp at h
    · split at h
      · simp at h
      · simp at h

set_option maxRecDepth 2048 in
lemma getTxOut_ok_iff (res : Option TxOutResult) (txid : String)
    (addr : P2SHAddr) (out : ℤ × ℤ × String) :
    getTxOut res txid addr = .ok out ↔
      ∃ t, res = some t ∧ (newHashFromStr txid).isSome ∧ t.coinbase = false ∧
        t.addresses = [addr] ∧
        out = (txOutSatoshi t.value, t.confirmations, t.bestBlock) := by
  unfold getTxOut
  cases hp : newHashFromStr txid with
  | none => simp [hp]
  | some hh =>
    simp only [hp, Option.isNone_some, Bool.false_eq_true, if_false,
      Option.isSome_some, true_and]
    cases res with
    | none => simp
    | some t =>
      simp only [Option.some.injEq]
      cases hcb : t.coinbase with
      | true => simp [hcb]
      | false =>
        simp only [hcb, Bool.false_eq_true, if_false]
        rcases haddr : t.addresses with _ | ⟨a, _ | ⟨b, rest⟩⟩
        · simp [haddr]
        · by_cases ha : a = addr
          · subst ha
            simp only [ne_eq, not_true_eq_false, if_false]
            constructor
            · intro hok
              refine ⟨t, rfl, hcb, haddr, ?_⟩
              injection hok with h'
              exact h'.symm
            · rintro ⟨t', ht', hcb', haddr', hout⟩
              subst ht'
              rw [hout]
          · simp only [ne_eq, ha, not_false_eq_true, if_true]
            constructor
            · intro hok; exact absurd hok (by simp)
            · rintro ⟨t', ht', hcb', haddr', hout⟩
              subst ht'
              rw [haddr] at haddr'
              injection haddr' with hx1 hx2
              exact absurd hx1 ha
        · simp only []
          constructor
          · intro hok; exact absurd hok (by simp)
          · rintro ⟨t', ht', hcb', haddr', hout⟩
            subst ht'
            rw [haddr] at haddr'
            simp at haddr'

/-! Claim theorems. -/

/-- C1, counterexample: with the channel Open at balance 1000 (funding
1000000, fee 75000) and the engine accepting the sender signature, a Send of
2^63 - 500 satoshi succeeds, yet the committed balance is not the old
balance plus the amount: the int64 addition wraps to a negative value.  This
refutes the claim that a successful Send always sets balance to the old
balance plus amount. -/
theorem c1_counterexample :
    (receiverSend sign0 engineT stOpen (2 ^ 63 - 500) [7]).2 = none ∧
    (receiverSend sign0 engineT stOpen (2 ^ 63 - 500) [7]).1.balance ≠
      stOpen.balance + (2 ^ 63 - 500) := by
  decide

/-- C1, amended: provided the int64 addition balance + amount does not
overflow, Receiver.Send succeeds only if status is Open, validateAmount
passes and the script-engine validation passes at the new balance; on
success it increments count by one, sets balance to the old balance plus
amount and stores the sender signature, leaving every other field
unchanged; on any failure it leaves every field of the state unchanged. -/
theorem c1_send_contract (sign : Tx → Script → List ℕ)
    (engine : Script → Tx → Bool) (ss : SharedState) (amount : ℤ)
    (sig : List ℕ) (h1 : -2 ^ 63 ≤ ss.balance)
    (h2 : ss.balance + amount < 2 ^ 63) :
    ((receiverSend sign engine ss amount sig).2 = none →
      ss.status = .opened ∧
      (ss.validateAmount amount).2 = none ∧
      validateSenderSig sign engine ss (ss.balance + amount) sig = none ∧
      (receiverSend sign engine ss amount sig).1 =
        { ss with count := ss.count + 1, balance := ss.balance + amount,
                  senderSig := sig }) ∧
    ((receiverSend sign engine ss amount sig).2 ≠ none →
      (receiverSend sign engine ss amount sig).1 = ss) := by
  have key : ∀ nb, ss.validateAmount amount = (nb, none) → nb = ss.balance + amount := by
    intro nb h
    revert h
    unfold SharedState.validateAmount
    by_cases ha : amount ≤ 0
    · simp [ha]
    · simp only [if_neg ha]
      by_cases hc : ss.fundingAmount < wrap64 (wrap64 (ss.balance + amount) + ss.fee)
      · simp [hc]
      · simp only [if_neg hc]
        intro h
        have h' := (Prod.mk.injEq _ _ _ _).mp h
        rw [← h'.1]
        exact wrap64_eq_self (by omega) (by omega)
  unfold receiverSend
  split
  · exact ⟨fun hc => by simp at hc, fun _ => rfl⟩
  · rename_i hs'
    have hs : ss.status = .opened := by simpa [ne_eq, not_not] using hs'
    split
    · exact ⟨fun hc => by simp at hc, fun _ => rfl⟩
    · rename_i nb heq
      have hnb := key nb heq
      subst hnb
      split
      · exact ⟨fun hc => by simp at hc, fun _ => rfl⟩
      · rename_i hvs
        exact ⟨fun _ => ⟨hs, by rw [heq], hvs, rfl⟩, fun hc => absurd rfl hc⟩

/-- C1, witness: the amended Send contract evaluated at an Open channel with
balance 1000 and a 100000 satoshi payment. -/
theorem c1_witness :
    ((-2 ^ 63 : ℤ) ≤ stOpen.balance ∧ stOpen.balance + 100000 < 2 ^ 63) ∧
    ((receiverSend sign0 engineT stOpen 100000 [7]).2 = none →
      stOpen.status = .opened ∧
      (stOpen.validateAmount 100000).2 = none ∧
      validateSenderSig sign0 engineT stOpen (stOpen.balance + 100000) [7] = none ∧
      (receiverSend sign0 engineT stOpen 100000 [7]).1 =
        { stOpen with count := stOpen.count + 1,
                      balance := stOpen.balance + 100000, senderSig := [7] }) :=
  ⟨⟨by decide, by decide⟩,
   (c1_send_contract sign0 engineT stOpen 100000 [7] (by decide) (by decide)).1⟩

/-- C2: for every state whose funding txid parses and whose sender amount
fundingAmount - balance - fee stays inside int64, the closure transaction
spends exactly (fundingTxID, fundingVout), carries an output of balance
satoshi to the receiver P2PKH iff balance is positive followed by an output
of fundingAmount - balance - fee satoshi to the sender P2PKH iff that
amount is positive, and its output count is the number of strictly positive
values among the two amounts. -/
theorem c2_closure_outputs (ss : SharedState) (h : List ℕ)
    (hp : newHashFromStr ss.fundingTxID = some h)
    (h1 : -2 ^ 63 ≤ ss.fundingAmount - ss.balance - ss.fee)
    (h2 : ss.fundingAmount - ss.balance - ss.fee < 2 ^ 63) :
    ∃ tx, ss.GetClosureTx ss.balance = some tx ∧
      tx.txIn = [{ prevHash := h, prevIndex := ss.fundingVout, sequence := 0,
                   signatureScript := [] }] ∧
      tx.txOut =
        (if 0 < ss.balance then [sendToAddress ss.balance ss.receiverPubKey]
         else []) ++
        (if 0 < ss.fundingAmount - ss.balance - ss.fee then
           [sendToAddress (ss.fundingAmount - ss.balance - ss.fee) ss.senderPubKey]
         else []) ∧
      tx.txOut.length =
        (if 0 < ss.balance then 1 else 0) +
        (if 0 < ss.fundingAmount - ss.balance - ss.fee then 1 else 0) := by
  have hw := wrap64_eq_self h1 h2
  simp only [SharedState.GetClosureTx, SharedState.spendFundingTx, hp, hw]
  refine ⟨_, rfl, rfl, rfl, ?_⟩
  split_ifs <;> simp

/-- C2, witness: the closure transaction of the scenario-S1 state (funding
1000000, fee 75000, balance 200000) pays 200000 to the receiver and 725000
to the sender, in that order. -/
theorem c2_witness :
    (newHashFromStr ({ stOpen with fundingTxID := "ab", balance := 200000 } : SharedState).fundingTxID =
      some (171 :: List.replicate 31 0) ∧
     (-2 ^ 63 : ℤ) ≤ 1000000 - 200000 - 75000 ∧ (1000000 - 200000 - 75000 : ℤ) < 2 ^ 63) ∧
    (∃ tx, ({ stOpen with fundingTxID := "ab", balance := 200000 } : SharedState).GetClosureTx 200000 =
        some tx ∧
      tx.txIn = [{ prevHash := 171 :: List.replicate 31 0, prevIndex := 0, sequence := 0,
                   signatureScript := [] }] ∧
      tx.txOut =
        (if (0 : ℤ) < 200000 then [sendToAddress 200000 [3, 8]] else []) ++
        (if (0 : ℤ) < 1000000 - 200000 - 75000 then
           [sendToAddress (1000000 - 200000 - 75000) [2, 7]] else []) ∧
      tx.txOut.length =
        (if (0 : ℤ) < 200000 then 1 else 0) +
        (if (0 : ℤ) < 1000000 - 200000 - 75000 then 1 else 0)) :=
  ⟨⟨by decide, by decide, by decide⟩,
   c2_closure_outputs { stOpen with fundingTxID := "ab", balance := 200000 }
     (171 :: List.replicate 31 0) (by decide) (by decide) (by decide)⟩

/-- C3, counterexample: with balance 0, fee 75000 and fundingAmount 1000000,
validateAmount(2^63 - 1) succeeds and returns balance plus amount, although
the capacity condition balance + amount + fee <= fundingAmount is violated:
the int64 addition newBalance + fee wraps negative.  This refutes the
claimed equivalence. -/
theorem c3_counterexample :
    ({ stOpen with balance := 0 } : SharedState).validateAmount (2 ^ 63 - 1) =
      ((0 : ℤ) + (2 ^ 63 - 1), none) ∧
    (0 : ℤ) < 2 ^ 63 - 1 ∧
    ¬((0 : ℤ) + (2 ^ 63 - 1) + ({ stOpen with balance := 0 } : SharedState).fee ≤
      ({ stOpen with balance := 0 } : SharedState).fundingAmount) := by
  decide

/-- C3, amended: provided balance + amount + fee stays inside int64 (no
overflow), validateAmount returns balance + amount with no error iff the
amount is positive and balance + amount + fee <= fundingAmount; it fails
with the invalid-amount error when amount <= 0 and with the
insufficient-capacity error when the capacity bound is exceeded. -/
theorem c3_validateAmount_spec (ss : SharedState) (amount : ℤ)
    (h1 : -2 ^ 63 ≤ ss.balance) (h2 : ss.balance + amount + ss.fee < 2 ^ 63)
    (h3 : 0 ≤ ss.fee) :
    (ss.validateAmount amount = (ss.balance + amount, none) ↔
      0 < amount ∧ ss.balance + amount + ss.fee ≤ ss.fundingAmount) ∧
    (amount ≤ 0 → ss.validateAmount amount = (ss.balance, some .invalidAmount)) ∧
    (0 < amount → ss.fundingAmount < ss.balance + amount + ss.fee →
      ss.validateAmount amount = (ss.balance, some .insufficientCapacity)) := by
  unfold SharedState.validateAmount
  by_cases ha : amount ≤ 0
  · simp only [if_pos ha]
    refine ⟨?_, fun _ => by simp, fun h _ => absurd h (not_lt.mpr ha)⟩
    constructor
    · intro h; exact absurd (congrArg Prod.snd h) (by simp)
    · rintro ⟨h, -⟩; exact absurd h (not_lt.mpr ha)
  · push_neg at ha
    have hnb : wrap64 (ss.balance + amount) = ss.balance + amount :=
      wrap64_eq_self (by omega) (by omega)
    have hfee : wrap64 (wrap64 (ss.balance + amount) + ss.fee) =
        ss.balance + amount + ss.fee := by
      rw [hnb]; exact wrap64_eq_self (by omega) (by omega)
    simp only [if_neg (not_le.mpr ha), hfee]
    by_cases hc : ss.fundingAmount < ss.balance + amount + ss.fee
    · simp only [if_pos hc]
      refine ⟨?_, fun h => absurd ha (not_lt.mpr h), fun _ _ => by simp⟩
      constructor
      · intro h; exact absurd (congrArg Prod.snd h) (by simp)
      · rintro ⟨-, h⟩; exact absurd hc (not_lt.mpr h)
    · simp only [if_neg hc, hnb]
      refine ⟨?_, fun h => absurd ha (not_lt.mpr h), fun _ h => absurd h hc⟩
      exact ⟨fun _ => ⟨ha, not_lt.mp hc⟩, fun _ => by simp⟩

/-- C3, witness: the amended validateAmount characterization evaluated at an
Open channel with balance 1000 and amount 100. -/
theorem c3_witness :
    ((-2 ^ 63 : ℤ) ≤ stOpen.balance ∧ stOpen.balance + 100 + stOpen.fee < 2 ^ 63 ∧
     (0 : ℤ) ≤ stOpen.fee) ∧
    (stOpen.validateAmount 100 = (stOpen.balance + 100, none) ↔
      (0 : ℤ) < 100 ∧ stOpen.balance + 100 + stOpen.fee ≤ stOpen.fundingAmount) :=
  ⟨⟨by decide, by decide, by decide⟩,
   (c3_validateAmount_spec stOpen 100 (by decide) (by decide) (by decide)).1⟩

/-- C4: code bug.  channels.Receiver.Open performs no status precondition
check: called on a Closed channel with an engine-accepted signature it
succeeds and resets the status to Open, a backward move in the status
order, contradicting the claim that Open succeeds only from
PreInfoGathered and that status never moves backward. -/
theorem c4_open_ignores_status :
    ({ stOpen with status := .closed } : SharedState).status = .closed ∧
    (receiverOpen sign0 engineT { stOpen with status := .closed } "" 0 1000000 7 [9]).2 = none ∧
    (receiverOpen sign0 engineT { stOpen with status := .closed } "" 0 1000000 7 [9]).1.status = .opened ∧
    Status.code (receiverOpen sign0 engineT { stOpen with status := .closed } "" 0 1000000 7 [9]).1.status <
      Status.code ({ stOpen with status := .closed } : SharedState).status := by
  decide

/-- C5, counterexample: from a PreInfoGathered state with balance 0 and the
default fee 75000, an Open with a 1000 satoshi funding UTXO commits (neither
the role nor the orchestrator checks fundingAmount against the fee), leaving
a state with status Open and balance + fee > fundingAmount.  This refutes
the claimed invariant for every committed transition. -/
theorem c5_counterexample :
    ChannelInv { stOpen with status := .preInfoGathered, balance := 0, fundingAmount := 0 } ∧
    (receiverOpen sign0 engineT
      { stOpen with status := .preInfoGathered, balance := 0, fundingAmount := 0 }
      "" 0 1000 7 [9]).2 = none ∧
    (receiverOpen sign0 engineT
      { stOpen with status := .preInfoGathered, balance := 0, fundingAmount := 0 }
      "" 0 1000 7 [9]).1.status = .opened ∧
    ¬ChannelInv (receiverOpen sign0 engineT
      { stOpen with status := .preInfoGathered, balance := 0, fundingAmount := 0 }
      "" 0 1000 7 [9]).1 := by
  decide

/-- C5, amended: each committed receiver transition preserves the invariant
0 <= balance and balance + fee <= fundingAmount (for statuses at least
Open), under the side conditions the code does not enforce: at Open the new
funding amount must cover balance + fee, at Send the int64 additions must
not overflow, and CloseMined must start from Closing. -/
theorem c5_invariant_preservation (sign : Tx → Script → List ℕ)
    (engine : Script → Tx → Bool) (ss : SharedState) (hinv : ChannelInv ss) :
    (∀ txid vout amount height sig ss₂,
       ss.balance + ss.fee ≤ amount →
       receiverOpen sign engine ss txid vout amount height sig = (ss₂, none) →
       ChannelInv ss₂) ∧
    (∀ amount sig ss₂,
       0 ≤ ss.fee → ss.balance + amount + ss.fee < 2 ^ 63 →
       receiverSend sign engine ss amount sig = (ss₂, none) →
       ChannelInv ss₂) ∧
    (∀ ss₂ e tx, receiverClose sign ss = (ss₂, e, tx) → ChannelInv ss₂) ∧
    (ss.status = .closing → ChannelInv (receiverCloseMined ss)) := by
  obtain ⟨hbal, hcap⟩ := hinv
  refine ⟨?_, ?_, ?_, ?_⟩
  · intro txid vout amount height sig ss₂ hfund hopen
    simp only [receiverOpen] at hopen
    split at hopen
    · exact absurd (congrArg Prod.snd hopen) (by simp)
    · have h' := congrArg Prod.fst hopen
      simp only at h'
      subst h'
      exact ⟨hbal, fun _ => hfund⟩
  · intro amount sig ss₂ hfee hbound hsend
    unfold receiverSend at hsend
    split at hsend
    · exact absurd (congrArg Prod.snd hsend) (by simp)
    · split at hsend
      · exact absurd (congrArg Prod.snd hsend) (by simp)
      · rename_i nb heq
        split at hsend
        · exact absurd (congrArg Prod.snd hsend) (by simp)
        · have h' := congrArg Prod.fst hsend
          simp only at h'
          subst h'
          obtain ⟨ha, hnb, hc⟩ := validateAmount_ok heq (by omega) hbound hfee
          subst hnb
          refine ⟨?_, fun _ => ?_⟩
          · show (0 : ℤ) ≤ ss.balance + amount
            omega
          · show ss.balance + amount + ss.fee ≤ ss.fundingAmount
            omega
  · intro ss₂ e tx hclose
    unfold receiverClose at hclose
    split at hclose
    · have h' := congrArg (fun p => p.1) hclose
      simp only at h'
      subst h'
      exact ⟨hbal, hcap⟩
    · rename_i hst
      push_neg at hst
      split at hclose
      · have h' := congrArg (fun p => p.1) hclose
        simp only at h'
        subst h'
        exact ⟨hbal, hcap⟩
      · have h' := congrArg (fun p => p.1) hclose
        simp only at h'
        subst h'
        refine ⟨hbal, fun _ => ?_⟩
        rcases Decidable.em (ss.status = .opened) with h | h
        · exact hcap (Or.inl h)
        · exact hcap (Or.inr (Or.inl (hst h)))
  · intro hcl
    exact ⟨hbal, fun _ => hcap (Or.inr (Or.inl hcl))⟩

/-- C5, witness: the Send preservation case evaluated at an Open channel
with balance 1000, fee 75000, funding 1000000 and a 100000 satoshi Send. -/
theorem c5_witness :
    ChannelInv stOpen ∧
    ChannelInv { stOpen with count := stOpen.count + 1, balance := 101000,
                             senderSig := [7] } :=
  ⟨by decide,
   (c5_invariant_preservation sign0 engineT stOpen (by decide)).2.1 100000 [7]
     { stOpen with count := stOpen.count + 1, balance := 101000, senderSig := [7] }
     (by decide) (by decide) (by decide)⟩

/-- C6: for every state whose funding txid parses, whose timeout fits in
uint32 and whose refund amount fundingAmount - fee stays inside int64, the
signed refund transaction has exactly one input spending (fundingTxID,
fundingVout) with sequence equal to timeout, exactly one output paying
fundingAmount - fee satoshi to the sender P2PKH, and an input scriptSig
pushing, in order, the signature, the sender public key bytes, OP_FALSE and
the redeem script. -/
theorem c6_refund_structure (sign : Tx → Script → List ℕ) (ss : SharedState)
    (h : List ℕ) (hp : newHashFromStr ss.fundingTxID = some h)
    (ht1 : 0 ≤ ss.timeout) (ht2 : ss.timeout < 2 ^ 32)
    (ha1 : -2 ^ 63 ≤ ss.fundingAmount - ss.fee)
    (ha2 : ss.fundingAmount - ss.fee < 2 ^ 63) :
    ∃ tx sig, ss.GetRefundTxSigned sign = some tx ∧
      tx.txIn = [{ prevHash := h, prevIndex := ss.fundingVout,
                   sequence := ss.timeout.toNat,
                   signatureScript :=
                     [.data sig, .data ss.senderPubKey, .op OP_FALSE,
                      .data (encodeScript (fundingTxScript ss.senderPubKey
                               ss.receiverPubKey ss.timeout))] }] ∧
      tx.txOut = [sendToAddress (ss.fundingAmount - ss.fee) ss.senderPubKey] := by
  have hw := wrap64_eq_self ha1 ha2
  have h32 := wrap32u_eq_toNat ht1 ht2
  simp only [SharedState.GetRefundTxSigned, SharedState.spendFundingTx, hp, hw, h32,
    Tx.setSequence, Tx.setSigScript, SharedState.GetFundingScript]
  exact ⟨_, _, rfl, rfl, rfl⟩

/-- C6, witness: the refund transaction of the funded base state pays
925000 satoshi to the sender with sequence 3. -/
theorem c6_witness :
    (newHashFromStr ({ stOpen with fundingTxID := "ab" } : SharedState).fundingTxID =
       some (171 :: List.replicate 31 0) ∧
     (0 : ℤ) ≤ 3 ∧ (3 : ℤ) < 2 ^ 32 ∧
     (-2 ^ 63 : ℤ) ≤ 1000000 - 75000 ∧ (1000000 - 75000 : ℤ) < 2 ^ 63) ∧
    (∃ tx sig, ({ stOpen with fundingTxID := "ab" } : SharedState).GetRefundTxSigned sign0 =
        some tx ∧
      tx.txIn = [{ prevHash := 171 :: List.replicate 31 0, prevIndex := 0,
                   sequence := (3 : ℤ).toNat,
                   signatureScript :=
                     [.data sig, .data [2, 7], .op OP_FALSE,
                      .data (encodeScript (fundingTxScript [2, 7] [3, 8] 3))] }] ∧
      tx.txOut = [sendToAddress (1000000 - 75000) [2, 7]]) :=
  ⟨⟨by decide, by decide, by decide, by decide, by decide⟩,
   c6_refund_structure sign0 { stOpen with fundingTxID := "ab" }
     (171 :: List.replicate 31 0) (by decide) (by decide) (by decide) (by decide) (by decide)⟩

/-- C7: the orchestrator Open prechecks succeed exactly when the funding
txid parses, the UTXO exists, is not coinbase, lists exactly the expected
funding P2SH address, and its confirmation count lies in the closed
interval [minConf, timeout - closeWindow]; every precheck failure is
returned as the orchestrator result without delegating, and the
orchestrator reaches ReceiverRole.Open (an ok outcome or a role error) only
when the prechecks pass. -/
theorem c7_open_gate (sign : Tx → Script → List ℕ) (engine : Script → Tx → Bool)
    (minConf closeWindow : ℤ) (ss : SharedState) (res : Option TxOutResult)
    (heightRes : String → Option ℤ) (txid : String) (vout : ℕ)
    (senderSig : List ℕ) (h1 : -2 ^ 63 ≤ ss.timeout - closeWindow)
    (h2 : ss.timeout - closeWindow < 2 ^ 63) :
    (∀ amount blockHash,
       orchOpenChecks minConf closeWindow ss res txid = .ok (amount, blockHash) ↔
         ∃ t, res = some t ∧ (newHashFromStr txid).isSome ∧ t.coinbase = false ∧
           t.addresses = [(ss.GetFundingScript).2] ∧
           minConf ≤ t.confirmations ∧ t.confirmations ≤ ss.timeout - closeWindow ∧
           amount = txOutSatoshi t.value ∧ blockHash = t.bestBlock) ∧
    (∀ e, orchOpenChecks minConf closeWindow ss res txid = .error e →
       orchestratorOpen sign engine minConf closeWindow (some ss) res heightRes
         txid vout senderSig = .error e) ∧
    (∀ ss₂, orchestratorOpen sign engine minConf closeWindow (some ss) res
         heightRes txid vout senderSig = .ok ss₂ →
       ∃ ab, orchOpenChecks minConf closeWindow ss res txid = .ok ab) ∧
    (∀ e, orchestratorOpen sign engine minConf closeWindow (some ss) res
         heightRes txid vout senderSig = .error (.roleError e) →
       ∃ ab, orchOpenChecks minConf closeWindow ss res txid = .ok ab) := by
  have hw := wrap64_eq_self h1 h2
  refine ⟨?_, ?_, ?_, ?_⟩
  · intro amount blockHash
    simp only [orchOpenChecks]
    cases hg : getTxOut res txid (ss.GetFundingScript).2 with
    | error e =>
      constructor
      · intro hok
        exact absurd hok (by simp)
      · rintro ⟨t, hres, hps, hcb, haddr, hminc, hmaxc, rfl, rfl⟩
        have hgo : getTxOut res txid (ss.GetFundingScript).2 =
            .ok (txOutSatoshi t.value, t.confirmations, t.bestBlock) :=
          (getTxOut_ok_iff res txid _ _).mpr ⟨t, hres, hps, hcb, haddr, rfl⟩
        rw [hg] at hgo
        exact absurd hgo (by simp)
    | ok out =>
      rcases out with ⟨sat, conf, bb⟩
      obtain ⟨t, hres, hps, hcb, haddr, hout⟩ := (getTxOut_ok_iff res txid _ _).mp hg
      obtain ⟨hsat, hconf, hbb⟩ : sat = txOutSatoshi t.value ∧
          conf = t.confirmations ∧ bb = t.bestBlock := by
        simp only [Prod.mk.injEq] at hout
        exact ⟨hout.1, hout.2.1, hout.2.2⟩
      subst hsat; subst hconf; subst hbb
      simp only [hw]
      by_cases hlo : t.confirmations < minConf
      · simp only [if_pos hlo]
        constructor
        · intro hok; exact absurd hok (by simp)
        · rintro ⟨t', hres', hps', hcb', haddr', hminc', hmaxc', rfl, rfl⟩
          rw [hres] at hres'
          obtain rfl : t = t' := by injection hres'
          omega
      · by_cases hhi : ss.timeout - closeWindow < t.confirmations
        · simp only [if_neg hlo, if_pos hhi]
          constructor
          · intro hok; exact absurd hok (by simp)
          · rintro ⟨t', hres', hps', hcb', haddr', hminc', hmaxc', rfl, rfl⟩
            rw [hres] at hres'
            obtain rfl : t = t' := by injection hres'
            omega
        · simp only [if_neg hlo, if_neg hhi]
          constructor
          · intro hok
            obtain ⟨hsat', hbb'⟩ : txOutSatoshi t.value = amount ∧ t.bestBlock = blockHash := by
              simp only [Except.ok.injEq, Prod.mk.injEq] at hok
              exact hok
            exact ⟨t, hres, hps, hcb, haddr, not_lt.mp hlo, not_lt.mp hhi,
              hsat'.symm, hbb'.symm⟩
          · rintro ⟨t', hres', hps', hcb', haddr', hminc', hmaxc', rfl, rfl⟩
            rw [hres] at hres'
            obtain rfl : t = t' := by injection hres'
            rfl
  · intro e he
    unfold orchestratorOpen
    simp only [he]
  · intro ss₂ hok
    cases hc : orchOpenChecks minConf closeWindow ss res txid with
    | error e =>
      unfold orchestratorOpen at hok
      simp only [hc] at hok
      exact absurd hok (by simp)
    | ok ab => exact ⟨ab, rfl⟩
  · intro e he
    cases hc : orchOpenChecks minConf closeWindow ss res txid with
    | error e' =>
      unfold orchestratorOpen at he
      simp only [hc] at he
      injection he with he'
      subst he'
      exact absurd hc (orchOpenChecks_not_role minConf closeWindow ss res txid e)
    | ok ab => exact ⟨ab, rfl⟩

/-- C7, witness: the precheck characterization evaluated at a matching UTXO
reply with 2 confirmations, minConf 1 and closeWindow 1 for the timeout-3
state: the prechecks succeed. -/
theorem c7_witness :
    ((-2 ^ 63 : ℤ) ≤ stOpen.timeout - 1 ∧ stOpen.timeout - 1 < 2 ^ 63) ∧
    orchOpenChecks 1 1 stOpen (some txoutW) "ab" =
      .ok (txOutSatoshi txoutW.value, txoutW.bestBlock) :=
  ⟨⟨by decide, by decide⟩,
   ((c7_open_gate sign0 engineT 1 1 stOpen (some txoutW) (fun _ => some 7) "ab" 0 [9]
       (by decide) (by decide)).1 (txOutSatoshi txoutW.value) txoutW.bestBlock).mpr
     ⟨txoutW, rfl, by decide, rfl, rfl, by decide, by decide, rfl, rfl⟩⟩

/-- C8: Sender.PrepareSend returns the committed state untouched for every
amount (it only validates and signs); the balance and count change only in
Sender.SendAccepted. -/
theorem c8_prepareSend_no_mutation (sign : Tx → Script → List ℕ)
    (ss : SharedState) (amount : ℤ) :
    (senderPrepareSend sign ss amount).1 = ss ∧
    senderSendAccepted ss amount =
      { ss with count := ss.count + 1, balance := wrap64 (ss.balance + amount) } := by
  refine ⟨?_, rfl⟩
  unfold senderPrepareSend
  rcases h : ss.validateAmount amount with ⟨v, e⟩
  cases e <;> simp

/-- C9, counterexample: for a node value of 0.000000015 BTC the orchestrator
computes 1 satoshi (int64 truncation of value times 1e8), while the nearest
integer to value times 1e8 is 2.  This refutes the claim that the satoshi
amount is the rounded product. -/
theorem c9_counterexample :
    txOutSatoshi (3 / 200000000) = 1 ∧
    round (((3 : ℚ) / 200000000) * 100000000) = 2 := by
  have hv : ((3 : ℚ) / 200000000) * 100000000 = 3 / 2 := by norm_num
  constructor
  · unfold txOutSatoshi goTruncInt64
    rw [hv, if_pos (by norm_num)]
    norm_num
  · rw [hv, round_eq]
    norm_num

/-- C9, amended: for every nonnegative node value the orchestrator computes
the satoshi amount as the floor of value times 1e8 (the Go int64 conversion
truncates toward zero), not the nearest integer. -/
theorem c9_trunc (v : ℚ) (hv : 0 ≤ v) :
    txOutSatoshi v = ⌊v * 100000000⌋ := by
  unfold txOutSatoshi goTruncInt64
  rw [if_pos (by positivity)]

/-- C9, witness: the truncating conversion evaluated at 1 BTC. -/
theorem c9_witness :
    (0 : ℚ) ≤ 1 ∧ txOutSatoshi 1 = ⌊(1 : ℚ) * 100000000⌋ :=
  ⟨by norm_num, c9_trunc 1 (by norm_num)⟩

/-- C10: Receiver.Open writes the four funding fields into the in-memory
state before signature validation runs, so when validation fails the
returned state is exactly the input state with the new funding fields, all
other fields, in particular status and senderSig, unchanged. -/
theorem c10_open_failure_retains_funding (sign : Tx → Script → List ℕ)
    (engine : Script → Tx → Bool) (ss : SharedState) (txid : String)
    (vout : ℕ) (amount height : ℤ) (senderSig : List ℕ)
    (h : (receiverOpen sign engine ss txid vout amount height senderSig).2 ≠ none) :
    (receiverOpen sign engine ss txid vout amount height senderSig).1 =
      { ss with fundingTxID := txid, fundingVout := vout,
                fundingAmount := amount, blockHeight := height } ∧
    (receiverOpen sign engine ss txid vout amount height senderSig).1.status = ss.status ∧
    (receiverOpen sign engine ss txid vout amount height senderSig).1.senderSig = ss.senderSig := by
  unfold receiverOpen at *
  cases hv : validateSenderSig sign engine
      { ss with fundingTxID := txid, fundingVout := vout,
                fundingAmount := amount, blockHeight := height } 0 senderSig <;>
    simp [hv] at h ⊢

/-- C10, witness: a rejected Open on the base state keeps the new funding
fields while status and senderSig stay unchanged. -/
theorem c10_witness :
    (receiverOpen sign0 engineF stOpen "" 0 5 6 [1]).2 ≠ none ∧
    ((receiverOpen sign0 engineF stOpen "" 0 5 6 [1]).1 =
      { stOpen with fundingTxID := "", fundingVout := 0,
                    fundingAmount := 5, blockHeight := 6 } ∧
     (receiverOpen sign0 engineF stOpen "" 0 5 6 [1]).1.status = stOpen.status ∧
     (receiverOpen sign0 engineF stOpen "" 0 5 6 [1]).1.senderSig = stOpen.senderSig) :=
  ⟨by decide, c10_open_failure_retains_funding sign0 engineF stOpen "" 0 5 6 [1] (by decide)⟩

end Moonchan
